import Mathlib

set_option autoImplicit false

/-!
Verification of the MTP (Machine Tasks Protocol) core against its
natural-language specification.

The development shallowly embeds the JavaScript source:

* `stableStringify` and its helpers embed `IdentityManager.stableStringify`
  (src/identity/identity-manager.js): the deterministic canonical JSON codec.
* `IdentityManager.sign` / `IdentityManager.verify` embed the signing and
  verification methods.  The Node `crypto` backend is an external collaborator
  of the repository; it is modelled as an idealized deterministic signature
  scheme (`cryptoSign` / `cryptoVerify`) whose only properties used are:
  a signature verifies against the paired public key iff it was produced by
  the paired private key over byte-identical input, and verification throws
  on a public key that is not in the expected format (mirroring the PEM
  decoder), which `IdentityManager.verify` catches.
* `CapabilityManager` embeds src/capability/capability-manager.js.  A zod
  schema is an external collaborator; it is modelled extensionally as a
  function `JsVal → Except String JsVal` (`.parse`: validated value or a
  thrown error message).
* `Executor` embeds src/execution/executor.js.  `Date.now()` is modelled by
  an explicit `now : Nat` argument wherever the source calls it.  JavaScript
  exceptions are modelled with `Except String`: `.error` is a thrown
  exception, and a `try/catch` in the source becomes a `match`.
* `Executor.executeTask` additionally returns the list of payloads the
  registered handler was invoked with during the call (`[]` or `[p]`): this
  instruments the single handler call site of the source so that claims of
  the form "the handler is never invoked" / "the handler receives payload p"
  are statable; it changes nothing else about the control flow.

JavaScript objects cannot carry duplicate keys, so every `JsVal.obj` arising
from the runtime has nodup keys; theorems about mappings assume this where it
matters.  JavaScript compares strings by UTF-16 code units in `Array.sort`;
the model compares Unicode code points, which agrees on the Basic
Multilingual Plane (all inputs considered here).  `toLowerCase` is modelled
on ASCII, as in the identifiers the source builds.  JavaScript numbers are
modelled as integers; non-finite numbers and floats are out of scope for
payloads (spec §4.1).
-/

/-- A JavaScript runtime value as it can appear in an MTP task payload:
`undef` is `undefined`, `func` is any function value, `obj` keeps its fields
in insertion order. -/
inductive JsVal where
  | null
  | undef
  | func
  | bool (b : Bool)
  | num (n : Int)
  | str (s : String)
  | arr (elems : List JsVal)
  | obj (fields : List (String × JsVal))

/-- The JavaScript `undefined` value, named so it can head an argument list. -/
def jsUndefined : JsVal := JsVal.undef

/-- Decimal digit character, `48 = '0'`. -/
def decDigitChar (n : Nat) : Char := Char.ofNat (48 + n)

/-- Fuel-driven decimal rendering (the fuel makes the definition structurally
recursive, hence kernel-reducible; `natDecimal` supplies enough fuel). -/
def decDigitsCore : Nat → Nat → List Char → List Char
  | 0, _, acc => acc
  | fuel + 1, n, acc =>
    if n < 10 then decDigitChar (n % 10) :: acc
    else decDigitsCore fuel (n / 10) (decDigitChar (n % 10) :: acc)

/-- Reference decimal rendering, by well-founded recursion (used in proofs). -/
def decDigits (n : Nat) : List Char :=
  if _h : n < 10 then [decDigitChar n]
  else decDigits (n / 10) ++ [decDigitChar (n % 10)]
decreasing_by exact Nat.div_lt_self (by omega) (by omega)

/-- JavaScript `ToString` on a non-negative integer (as in template literals
and `JSON.stringify`). -/
def natDecimal (n : Nat) : String := String.mk (decDigitsCore (n + 1) n [])

/-- JavaScript `ToString` / `JSON.stringify` on an integer. -/
def intDecimal : Int → String
  | .ofNat n => natDecimal n
  | .negSucc n => "-" ++ natDecimal (n + 1)

/-- Lowercase hex digit, as produced by `JSON.stringify` control escapes. -/
def ucHexDigit (n : Nat) : Char := if n < 10 then Char.ofNat (48 + n) else Char.ofNat (87 + n)

/-- Per-character escaping of `JSON.stringify` for string values. -/
def escapeChar (c : Char) : List Char :=
  if c = '"' then ['\\', '"']
  else if c = '\\' then ['\\', '\\']
  else if c = '\x08' then ['\\', 'b']
  else if c = '\x09' then ['\\', 't']
  else if c = '\x0a' then ['\\', 'n']
  else if c = '\x0c' then ['\\', 'f']
  else if c = '\x0d' then ['\\', 'r']
  else if c.toNat < 32 then ['\\', 'u', '0', '0', ucHexDigit (c.toNat / 16), ucHexDigit (c.toNat % 16)]
  else [c]

/-- The `JSON.stringify` form of a string: quoted and escaped. -/
def jsonQuote (s : String) : String := String.mk ('"' :: (s.data.map escapeChar).flatten ++ ['"'])

/-- Lexicographic comparison of character lists by code point: the default
`Array.prototype.sort` string order used on the object keys. -/
def charListLe : List Char → List Char → Bool
  | [], _ => true
  | _ :: _, [] => false
  | a :: as, b :: bs =>
    if a.toNat < b.toNat then true
    else if b.toNat < a.toNat then false
    else charListLe as bs

/-- Default JavaScript string sort order (on keys). -/
def keyLe (a b : String) : Bool := charListLe a.data b.data

/-- One step of insertion sort on (key, serialized value) entries. -/
def insertEntry (e : String × Option String) :
    List (String × Option String) → List (String × Option String)
  | [] => [e]
  | f :: rest => if keyLe e.1 f.1 then e :: f :: rest else f :: insertEntry e rest

/-- Stable sort of the (key, serialized value) entries by key: the
`Object.keys(obj).sort()` step of `stableStringify`. -/
def sortEntries : List (String × Option String) → List (String × Option String)
  | [] => []
  | e :: rest => insertEntry e (sortEntries rest)

/-- The join step `Array.prototype.join(',')`. -/
def joinComma : List String → String
  | [] => ""
  | [s] => s
  | s :: rest => s ++ "," ++ joinComma rest

/-- The `"key":value` fragment pushed for one object entry; `none` when the
value is `undefined` or a function (the source's
`value !== undefined && typeof value !== 'function'` filter). -/
def entryPart (ke : String × Option String) : Option String :=
  ke.2.map (fun s => jsonQuote ke.1 ++ ":" ++ s)

mutual

/-- The codec `IdentityManager.stableStringify`: deterministic JSON serialization.
Scalars go through `JSON.stringify`; `undefined` and functions produce
JavaScript `undefined` (modelled `none`); arrays join their serialized
elements with `','` (an element whose serialization is `undefined` joins as
the empty string); objects sort their keys and emit only entries whose value
is defined. -/
def stableStringify : JsVal → Option String
  | .undef => none
  | .func => none
  | .null => some "null"
  | .bool b => some (if b then "true" else "false")
  | .num n => some (intDecimal n)
  | .str s => some (jsonQuote s)
  | .arr elems => some ("[" ++ joinComma (stringifyElems elems) ++ "]")
  | .obj fields =>
    some ("\x7b" ++ joinComma ((sortEntries (stringifyEntries fields)).filterMap entryPart) ++ "\x7d")

/-- The element map `obj.map(item => IdentityManager.stableStringify(item))`, with the
`undefined` results already collapsed to `""` as `join` does. -/
def stringifyElems : List JsVal → List String
  | [] => []
  | e :: rest => (stableStringify e).getD "" :: stringifyElems rest

/-- Serialize each object field's value, keeping the key. -/
def stringifyEntries : List (String × JsVal) → List (String × Option String)
  | [] => []
  | kv :: rest => (kv.1, stableStringify kv.2) :: stringifyEntries rest

end

/-- A keypair of the modelled crypto backend, identified by its generation
seed. -/
structure KeyPair where
  seed : Nat

/-- The PEM-encoded public key of a keypair (model). -/
def pubKeyOf (kp : KeyPair) : String := "pub:" ++ natDecimal kp.seed

/-- The PEM-encoded private key of a keypair (model). -/
def privKeyOf (kp : KeyPair) : String := "priv:" ++ natDecimal kp.seed

/-- Model of `sign.sign(privateKey, 'hex')`: a deterministic signature over
the exact input bytes, a function of the private key and the payload. -/
def cryptoSign (privKey payload : String) : String :=
  String.mk ("sig(".data ++ privKey.data ++ '|' :: payload.data ++ [')'])

/-- Recover the private key paired with a well-formed public key; `none`
models a key the PEM decoder rejects. -/
def pubToPriv (publicKey : String) : Option String :=
  match publicKey.data with
  | 'p' :: 'u' :: 'b' :: ':' :: rest => some (String.mk ('p' :: 'r' :: 'i' :: 'v' :: ':' :: rest))
  | _ => none

/-- Model of `verify.verify(publicKey, signature, 'hex')`: `.error` models the
exception the backend throws on a malformed public key; otherwise the
signature is checked against the paired private key. -/
def cryptoVerify (publicKey signature payload : String) : Except String Bool :=
  match pubToPriv publicKey with
  | some priv => .ok (signature == cryptoSign priv payload)
  | none => .error "error:1E08010C:DECODER routines::unsupported"

/-- The `IdentityManager` class (src/identity/identity-manager.js): name, DID-style id,
and the keypair. -/
structure IdentityManager where
  name : String
  id : String
  privateKey : String
  publicKey : String

/-- The `IdentityManager` constructor on the fresh-keys path: the id embeds
the name and `Date.now()`. -/
def IdentityManager.create (name : String) (now : Nat) (kp : KeyPair) : IdentityManager :=
  { name
    id := "did:mtp:" ++ name ++ ":" ++ natDecimal now
    privateKey := privKeyOf kp
    publicKey := pubKeyOf kp }

/-- The method `IdentityManager.sign`: canonicalize, then sign the bytes.  When the data
canonicalizes to `undefined` (data is `undefined` or a function),
`sign.update(undefined)` throws, modelled by `.error`. -/
def IdentityManager.sign (im : IdentityManager) (data : JsVal) : Except String String :=
  match stableStringify data with
  | some payload => .ok (cryptoSign im.privateKey payload)
  | none => .error "The data argument must be of type string or an instance of Buffer"

/-- Static `IdentityManager.verify`: canonicalize identically to `sign`, then
verify.  Only the final `verify.verify` call sits inside the source's
`try/catch`, so a backend exception there becomes `false`, while
`verify.update(undefined)` (data is `undefined` or a function) throws
uncaught, modelled by `.error`. -/
def IdentityManager.verify (data : JsVal) (signature publicKey : String) : Except String Bool :=
  match stableStringify data with
  | some payload =>
    match cryptoVerify publicKey signature payload with
    | .ok b => .ok b
    | .error _ => .ok false
  | none => .error "The data argument must be of type string or an instance of Buffer"

/-- The public identity profile returned by `getIdentity()`. -/
structure PublicIdentity where
  id : String
  publicKey : String

/-- The method `IdentityManager.getIdentity`. -/
def IdentityManager.getIdentity (im : IdentityManager) : PublicIdentity :=
  { id := im.id, publicKey := im.publicKey }

/-- A zod schema, modelled extensionally by its `.parse` behaviour: the
validated (possibly stripped) value, or the thrown error's message. -/
def Schema := JsVal → Except String JsVal

/-- A registered capability (src/capability/capability-manager.js). -/
structure Capability where
  id : String
  name : String
  inputSchemaZod : Schema
  outputSchemaZod : Schema
  description : String
  constraints : JsVal

/-- The `CapabilityManager` class: the executor's public identity plus the in-memory
capability registry. -/
structure CapabilityManager where
  identity : PublicIdentity
  capabilities : List Capability

/-- ASCII branch of JavaScript `String.prototype.toLowerCase`. -/
def jsToLowerChar (c : Char) : Char :=
  if 65 ≤ c.toNat ∧ c.toNat ≤ 90 then Char.ofNat (c.toNat + 32) else c

/-- The characters matched by the regex class `\s` (ASCII branch). -/
def isJsSpace (c : Char) : Bool :=
  c == ' ' || c == '\x09' || c == '\x0a' || c == '\x0d' || c == '\x0b' || c == '\x0c'

/-- The step `replace(/\s+/g, '_')`: each maximal whitespace run becomes one `'_'`;
the flag records whether we are inside a run. -/
def collapseWs : Bool → List Char → List Char
  | _, [] => []
  | inRun, c :: rest =>
    if isJsSpace c then
      if inRun then collapseWs true rest else '_' :: collapseWs true rest
    else c :: collapseWs false rest

/-- The slug `name.toLowerCase().replace(/\s+/g, '_')`. -/
def slugify (name : String) : String :=
  String.mk (collapseWs false (name.data.map jsToLowerChar))

/-- The method `CapabilityManager.registerCapability`: allocate the id
`cap_<slug>_<Date.now()>`, push the capability, return it.  The state is
threaded explicitly; `now` is the `Date.now()` reading of this call. -/
def CapabilityManager.registerCapability (cm : CapabilityManager) (name : String)
    (inputSchema outputSchema : Schema) (constraints : JsVal) (now : Nat) :
    CapabilityManager × Capability :=
  let capabilityId := "cap_" ++ slugify name ++ "_" ++ natDecimal now
  let capability : Capability :=
    { id := capabilityId
      name
      inputSchemaZod := inputSchema
      outputSchemaZod := outputSchema
      description := "Capability for " ++ name
      constraints }
  ({ cm with capabilities := cm.capabilities ++ [capability] }, capability)

/-- The method `CapabilityManager.validateCapability`: find the capability, throw
`Capability not found: <id>` if absent, else delegate to the zod schema's
`.parse`, returning the validated data. -/
def CapabilityManager.validateCapability (cm : CapabilityManager) (capabilityId : String)
    (input : JsVal) : Except String JsVal :=
  match cm.capabilities.find? (fun c => c.id == capabilityId) with
  | none => .error ("Capability not found: " ++ capabilityId)
  | some cap => cap.inputSchemaZod input

/-- A registered handler: `async (payload) => result`, with a thrown or
rejected error carried as its message. -/
def Handler := JsVal → Except String JsVal

/-- The `Executor` class (src/execution/executor.js): identity, capability manager, and
the `Map` from capability ids to handlers (as an association list with `Map`
set/get semantics). -/
structure Executor where
  identity : IdentityManager
  capabilityManager : CapabilityManager
  handlers : List (String × Handler)

/-- The method `Map.prototype.set`: overwrite the binding if the key is present,
otherwise append it. -/
def mapSet (m : List (String × Handler)) (k : String) (v : Handler) : List (String × Handler) :=
  if m.any (fun kv => kv.1 == k) then m.map (fun kv => if kv.1 == k then (k, v) else kv)
  else m ++ [(k, v)]

/-- The method `Map.prototype.get`: the first (hence only) binding of the key. -/
def mapGet (m : List (String × Handler)) (k : String) : Option Handler :=
  match m.find? (fun kv => kv.1 == k) with
  | some kv => some kv.2
  | none => none

/-- The `Executor` constructor. -/
def Executor.create (name : String) (now : Nat) (kp : KeyPair) : Executor :=
  let identity := IdentityManager.create name now kp
  { identity
    capabilityManager := { identity := identity.getIdentity, capabilities := [] }
    handlers := [] }

/-- The method `Executor.addCapability`: register the public definition, then register
the internal handler under the fresh capability id. -/
def Executor.addCapability (ex : Executor) (name : String) (inputSchema outputSchema : Schema)
    (handler : Handler) (now : Nat) : Executor × Capability :=
  let rc := ex.capabilityManager.registerCapability name inputSchema outputSchema (.obj []) now
  ({ ex with
      capabilityManager := rc.1
      handlers := mapSet ex.handlers rc.2.id handler },
    rc.2)

/-- The signed result object built by `Executor._createSignedResult`:
`result` and `error` are `Option` because the source adds exactly one of the
two properties, depending on `status`. -/
structure SignedResult where
  taskId : JsVal
  executorId : String
  status : String
  timestamp : Nat
  result : Option JsVal
  error : Option JsVal
  signature : String

/-- The result object as it exists before the signature is attached: exactly
the fields that get signed, in the source's insertion order. -/
def SignedResult.unsignedJs (r : SignedResult) : JsVal :=
  .obj ([("taskId", r.taskId), ("executorId", .str r.executorId), ("status", .str r.status),
      ("timestamp", .num r.timestamp)]
    ++ (match r.result with | some v => [("result", v)] | none => [])
    ++ (match r.error with | some v => [("error", v)] | none => []))

/-- The method `Executor._createSignedResult(taskId, status, result, error)` with `now`
the `Date.now()` reading.  The signature is `this.identity.sign(resultObject)`;
the result object is a plain JavaScript object, so `stableStringify` is
defined on it and `sign` cannot throw here (`createSignedResult_signature`
below certifies the equivalence with `IdentityManager.sign`). -/
def Executor.createSignedResult (ex : Executor) (taskId : JsVal) (status : String)
    (result error : JsVal) (now : Nat) : SignedResult :=
  let r0 : SignedResult :=
    { taskId
      executorId := ex.identity.id
      status
      timestamp := now
      result := if status == "success" then some result else none
      error := if status == "success" then none else some error
      signature := "" }
  { r0 with signature := cryptoSign ex.identity.privateKey ((stableStringify r0.unsignedJs).getD "") }

/-- An incoming signed task, with the fields `executeTask` destructures. -/
structure SignedTask where
  taskId : JsVal
  requesterId : JsVal
  capabilityId : String
  payload : JsVal
  timestamp : JsVal
  signature : String
  publicKey : String

/-- The reconstruction `dataToVerify = { taskId, requesterId, capabilityId,
payload, timestamp }` of `executeTask`. -/
def taskDataToVerify (t : SignedTask) : JsVal :=
  .obj [("taskId", t.taskId), ("requesterId", t.requesterId),
    ("capabilityId", .str t.capabilityId), ("payload", t.payload), ("timestamp", t.timestamp)]

/-- The method `Executor.executeTask`: signature check, capability lookup, schema
validation, handler execution, result signing.  The second component of the
result lists the payloads the handler was invoked with during this call
(instrumentation of the single handler call site; see the header comment).
An uncaught JavaScript exception is `.error`. -/
def Executor.executeTask (ex : Executor) (t : SignedTask) (now : Nat) :
    Except String (SignedResult × List JsVal) :=
  match IdentityManager.verify (taskDataToVerify t) t.signature t.publicKey with
  | .error e => .error e
  | .ok false =>
    .ok (ex.createSignedResult t.taskId "failure" .null (.str "Invalid Task Signature: Auth Failed") now, [])
  | .ok true =>
    match mapGet ex.handlers t.capabilityId with
    | none =>
      .ok (ex.createSignedResult t.taskId "failure" .null
        (.str ("Capability \x27" ++ t.capabilityId ++ "\x27 not supported by this executor.")) now, [])
    | some handler =>
      match ex.capabilityManager.validateCapability t.capabilityId t.payload with
      | .error e =>
        .ok (ex.createSignedResult t.taskId "failure" .null
          (.str ("Schema Validation Failed: " ++ e)) now, [])
      | .ok _validated =>
        match handler t.payload with
        | .ok resultData => .ok (ex.createSignedResult t.taskId "success" resultData .null now, [t.payload])
        | .error err => .ok (ex.createSignedResult t.taskId "failure" .null (.str err) now, [t.payload])

/-- The `Requester` class (src/client/requester.js). -/
structure Requester where
  identity : IdentityManager

/-- The method `Requester.createTask`, with the generated uuid and `Date.now()` passed
explicitly.  The signature covers exactly `{taskId, requesterId,
capabilityId, payload, timestamp}` (see `createTask_signature`). -/
def Requester.createTask (rq : Requester) (capabilityId : String) (payload : JsVal)
    (taskId : String) (now : Nat) : SignedTask :=
  let taskData : JsVal :=
    .obj [("taskId", .str taskId), ("requesterId", .str rq.identity.id),
      ("capabilityId", .str capabilityId), ("payload", payload), ("timestamp", .num now)]
  { taskId := .str taskId
    requesterId := .str rq.identity.id
    capabilityId
    payload
    timestamp := .num now
    signature := cryptoSign rq.identity.privateKey ((stableStringify taskData).getD "")
    publicKey := rq.identity.publicKey }

/-! ### Concrete instances used in witnesses and counterexamples -/

/-- The order used on object entries: compare keys. -/
def entryLe (a b : String × Option String) : Prop := keyLe a.1 b.1 = true

/-- An accept-everything schema (like `z.any()`): `.parse` returns the value. -/
def schemaAccept : Schema := fun v => .ok v

/-- A reject-everything schema with a fixed zod-style diagnostic. -/
def schemaReject : Schema := fun _ => .error "Expected number, received string"

/-- A handler that echoes its payload. -/
def handlerEcho : Handler := fun p => .ok p

/-- Concrete executor for the C7 witness: one capability whose schema rejects. -/
def c7Exec : Executor :=
  ((Executor.create "exec" 0 ⟨2⟩).addCapability "Echo" schemaReject schemaAccept handlerEcho 0).1

/-- The capability registered in `c7Exec`. -/
def c7Cap : Capability :=
  ((Executor.create "exec" 0 ⟨2⟩).addCapability "Echo" schemaReject schemaAccept handlerEcho 0).2

/-- Concrete requester identity. -/
def c7Req : Requester := { identity := IdentityManager.create "req" 0 ⟨1⟩ }

/-- A validly signed concrete task for the C7 witness. -/
def c7Task : SignedTask := c7Req.createTask "cap_echo_0" (.num 1) "t1" 42

/-- Concrete executor for the C3 theorems. -/
def c3Exec : Executor :=
  ((Executor.create "exec" 0 ⟨2⟩).addCapability "Echo" schemaAccept schemaAccept handlerEcho 0).1

/-- Concrete requester for the C3 theorems. -/
def c3Req : Requester := { identity := IdentityManager.create "req" 0 ⟨1⟩ }

/-- A validly signed task with numeric payload. -/
def c3Task : SignedTask := c3Req.createTask "cap_echo_0" (.num 1) "t1" 42

/-- The task `c3Task` with only its payload changed (to a different canonical form). -/
def c3Tampered : SignedTask := { c3Task with payload := .num 2 }

/-- A validly signed task whose payload is `[undefined]`. -/
def c3cTask : SignedTask := c3Req.createTask "cap_echo_0" (.arr [.undef]) "t1" 42

/-- The task `c3cTask` with only its payload changed, from `[undefined]` to `[]`. -/
def c3cTampered : SignedTask := { c3cTask with payload := .arr [] }

/-- A zod object schema `z.object({a: z.number()})` in its default mode:
accepts objects and strips unknown fields down to the declared key `a`. -/
def schemaStripToA : Schema := fun v =>
  match v with
  | .obj fields => .ok (.obj (fields.filter (fun kv => kv.1 == "a")))
  | _ => .error "Expected object, received other"

/-- Concrete executor for C1: the registered schema strips unknown fields,
the handler echoes whatever payload it is invoked with. -/
def c1Exec : Executor :=
  ((Executor.create "exec" 0 ⟨2⟩).addCapability "Echo" schemaStripToA schemaAccept handlerEcho 0).1

/-- Concrete requester for C1. -/
def c1Req : Requester := { identity := IdentityManager.create "req" 0 ⟨1⟩ }

/-- A payload with one declared field `a` and one unknown field `extra`. -/
def c1Payload : JsVal := .obj [("a", .num 2), ("extra", .num 3)]

/-- A validly signed task carrying `c1Payload`. -/
def c1Task : SignedTask := c1Req.createTask "cap_echo_0" c1Payload "t1" 42

/-- A capability manager with no registrations, for the C9 theorems. -/
def cm9 : CapabilityManager :=
  { identity := { id := "did:mtp:x:0", publicKey := "pub:0" }, capabilities := [] }

/-! ### Helper lemmas about the canonical codec -/

theorem charListLe_total : ∀ (as bs : List Char), charListLe as bs = true ∨ charListLe bs as = true
  | [], _ => Or.inl rfl
  | _ :: _, [] => Or.inr rfl
  | a :: as, b :: bs => by
    simp only [charListLe]
    rcases Nat.lt_trichotomy a.toNat b.toNat with h | h | h
    · left; simp [h]
    · have hne : ¬ a.toNat < b.toNat := by omega
      have hne2 : ¬ b.toNat < a.toNat := by omega
      simp only [if_neg hne, if_neg hne2]
      exact charListLe_total as bs
    · right; simp [h]

theorem charListLe_trans : ∀ {as bs cs : List Char},
    charListLe as bs = true → charListLe bs cs = true → charListLe as cs = true
  | [], _, _, _, _ => rfl
  | _ :: _, [], _, h, _ => by simp [charListLe] at h
  | _ :: _, _ :: _, [], _, h => by simp [charListLe] at h
  | a :: as, b :: bs, c :: cs, h₁, h₂ => by
    simp only [charListLe] at h₁ h₂ ⊢
    rcases Nat.lt_trichotomy a.toNat b.toNat with hab | hab | hab <;>
      rcases Nat.lt_trichotomy b.toNat c.toNat with hbc | hbc | hbc <;>
      first
        | (exfalso; revert h₁; simp; omega)
        | (exfalso; revert h₂; simp; omega)
        | (simp only [if_pos (by omega : a.toNat < c.toNat)])
        | (have hac : ¬ a.toNat < c.toNat := by omega
           have hca : ¬ c.toNat < a.toNat := by omega
           simp only [if_neg hac, if_neg hca]
           rw [if_neg (by omega : ¬ a.toNat < b.toNat), if_neg (by omega : ¬ b.toNat < a.toNat)] at h₁
           rw [if_neg (by omega : ¬ b.toNat < c.toNat), if_neg (by omega : ¬ c.toNat < b.toNat)] at h₂
           exact charListLe_trans h₁ h₂)

theorem charListLe_antisymm : ∀ {as bs : List Char},
    charListLe as bs = true → charListLe bs as = true → as = bs
  | [], [], _, _ => rfl
  | [], _ :: _, _, h => by simp [charListLe] at h
  | _ :: _, [], h, _ => by simp [charListLe] at h
  | a :: as, b :: bs, h₁, h₂ => by
    simp only [charListLe] at h₁ h₂
    rcases Nat.lt_trichotomy a.toNat b.toNat with hab | hab | hab
    · rw [if_neg (by omega : ¬ b.toNat < a.toNat), if_pos hab] at h₂
      exact absurd h₂ (by simp)
    · have hac : a = b := by
        apply Char.ext
        exact UInt32.toNat.inj hab
      subst hac
      rw [if_neg (by omega : ¬ a.toNat < a.toNat), if_neg (by omega : ¬ a.toNat < a.toNat)] at h₁ h₂
      rw [charListLe_antisymm h₁ h₂]
    · rw [if_neg (by omega : ¬ a.toNat < b.toNat), if_pos hab] at h₁
      exact absurd h₁ (by simp)

theorem keyLe_total (a b : String) : keyLe a b = true ∨ keyLe b a = true :=
  charListLe_total a.data b.data

theorem keyLe_trans {a b c : String} (h₁ : keyLe a b = true) (h₂ : keyLe b c = true) :
    keyLe a c = true :=
  charListLe_trans h₁ h₂

theorem keyLe_antisymm {a b : String} (h₁ : keyLe a b = true) (h₂ : keyLe b a = true) : a = b :=
  String.ext (charListLe_antisymm h₁ h₂)

theorem perm_insertEntry (e : String × Option String) :
    ∀ l, (insertEntry e l).Perm (e :: l)
  | [] => List.Perm.refl _
  | f :: rest => by
    unfold insertEntry
    split
    · exact List.Perm.refl _
    · exact ((perm_insertEntry e rest).cons f).trans (List.Perm.swap e f rest)

theorem perm_sortEntries : ∀ l, (sortEntries l).Perm l
  | [] => List.Perm.refl _
  | e :: rest => (perm_insertEntry e (sortEntries rest)).trans ((perm_sortEntries rest).cons e)

theorem pairwise_insertEntry {e : String × Option String} :
    ∀ {l}, l.Pairwise entryLe → (insertEntry e l).Pairwise entryLe := by
  intro l
  induction l with
  | nil => intro _; simp [insertEntry]
  | cons f rest ih =>
    intro h
    obtain ⟨hf, hrest⟩ := List.pairwise_cons.mp h
    unfold insertEntry
    split
    · rename_i hle
      refine List.pairwise_cons.mpr ⟨?_, h⟩
      intro b hb
      rcases List.mem_cons.mp hb with hb | hb
      · subst hb; exact hle
      · exact keyLe_trans hle (hf b hb)
    · rename_i hnle
      have hfe : entryLe f e := by
        rcases keyLe_total e.1 f.1 with h' | h'
        · exact absurd h' hnle
        · exact h'
      refine List.pairwise_cons.mpr ⟨?_, ih hrest⟩
      intro b hb
      have : b ∈ e :: rest := (perm_insertEntry e rest).subset hb
      rcases List.mem_cons.mp this with hb' | hb'
      · subst hb'; exact hfe
      · exact hf b hb'

theorem pairwise_sortEntries : ∀ l, (sortEntries l).Pairwise entryLe
  | [] => List.Pairwise.nil
  | _e :: rest => pairwise_insertEntry (pairwise_sortEntries rest)

theorem perm_sorted_nodupFst_eq : ∀ {l₁ l₂ : List (String × Option String)},
    l₁.Perm l₂ → l₁.Pairwise entryLe → l₂.Pairwise entryLe →
    (l₁.map Prod.fst).Nodup → l₁ = l₂ := by
  intro l₁
  induction l₁ with
  | nil => intro l₂ hp _ _ _; exact hp.nil_eq
  | cons a t ih =>
    intro l₂ hp hs₁ hs₂ hnd
    cases l₂ with
    | nil => exact absurd hp.symm (by simp)
    | cons b t₂ =>
      obtain ⟨ha₁, hs₁'⟩ := List.pairwise_cons.mp hs₁
      obtain ⟨hb₂, hs₂'⟩ := List.pairwise_cons.mp hs₂
      obtain ⟨hnd₁, hnd'⟩ := List.nodup_cons.mp hnd
      have hab : a = b := by
        have hbmem : b ∈ a :: t := hp.symm.subset (List.mem_cons_self b t₂)
        have hamem : a ∈ b :: t₂ := hp.subset (List.mem_cons_self a t)
        rcases List.mem_cons.mp hbmem with h | hbt
        · exact h.symm
        rcases List.mem_cons.mp hamem with h | hat
        · exact h
        have h₁ : entryLe a b := ha₁ b hbt
        have h₂ : entryLe b a := hb₂ a hat
        have hk : a.1 = b.1 := keyLe_antisymm h₁ h₂
        exact absurd (hk ▸ List.mem_map_of_mem Prod.fst hbt) hnd₁
      subst hab
      have := ih hp.cons_inv hs₁' hs₂' hnd'
      rw [this]

theorem stringifyEntries_eq_map : ∀ f : List (String × JsVal),
    stringifyEntries f = f.map (fun kv => (kv.1, stableStringify kv.2))
  | [] => rfl
  | kv :: rest => by simp [stringifyEntries, stringifyEntries_eq_map rest]

theorem stringifyEntries_map_fst : ∀ f : List (String × JsVal),
    (stringifyEntries f).map Prod.fst = f.map Prod.fst
  | [] => rfl
  | kv :: rest => by simp [stringifyEntries, stringifyEntries_map_fst rest]

theorem filterMap_insertEntry_none {e : String × Option String} (he : entryPart e = none) :
    ∀ l, (insertEntry e l).filterMap entryPart = l.filterMap entryPart
  | [] => by simp [insertEntry, List.filterMap, he]
  | f :: rest => by
    unfold insertEntry
    split
    · simp [List.filterMap_cons, he]
    · simp only [List.filterMap_cons]
      rw [filterMap_insertEntry_none he rest]

theorem joinComma_length : ∀ l : List String,
    (joinComma l).length = (l.map String.length).sum + l.length - 1
  | [] => rfl
  | [s] => by simp [joinComma]
  | s :: t :: rest => by
    have ih := joinComma_length (t :: rest)
    simp only [joinComma, String.length_append, List.map_cons, List.sum_cons, List.length_cons] at *
    have hc : String.length "," = 1 := rfl
    omega

/-! ### Helper lemmas about decimal rendering and the crypto model -/

theorem decDigitsCore_eq : ∀ (fuel n : Nat) (acc : List Char), n < fuel →
    decDigitsCore fuel n acc = decDigits n ++ acc := by
  intro fuel
  induction fuel with
  | zero => intro n acc h; omega
  | succ f ih =>
    intro n acc h
    by_cases h10 : n < 10
    · rw [decDigitsCore, if_pos h10]
      unfold decDigits
      rw [dif_pos h10, Nat.mod_eq_of_lt h10]
      rfl
    · have hdiv : n / 10 < n := Nat.div_lt_self (by omega) (by omega)
      rw [decDigitsCore, if_neg h10, ih (n / 10) _ (by omega)]
      conv_rhs => unfold decDigits
      rw [dif_neg h10, List.append_assoc]
      rfl

theorem decDigitChar_inj_fin : ∀ a b : Fin 10, decDigitChar a.val = decDigitChar b.val → a = b := by
  decide

theorem decDigitChar_inj {a b : Nat} (ha : a < 10) (hb : b < 10)
    (h : decDigitChar a = decDigitChar b) : a = b := by
  have := decDigitChar_inj_fin ⟨a, ha⟩ ⟨b, hb⟩ h
  exact congrArg Fin.val this

theorem decDigits_ne_nil (n : Nat) : decDigits n ≠ [] := by
  unfold decDigits
  split
  · simp
  · simp

theorem decDigits_inj : ∀ {m n : Nat}, decDigits m = decDigits n → m = n := by
  intro m
  induction m using Nat.strong_induction_on with
  | _ m ih =>
    intro n h
    by_cases hm : m < 10 <;> by_cases hn : n < 10
    · unfold decDigits at h
      rw [dif_pos hm, dif_pos hn] at h
      exact decDigitChar_inj hm hn (by injection h)
    · exfalso
      have hlen := congrArg List.length h
      unfold decDigits at hlen
      rw [dif_pos hm, dif_neg hn] at hlen
      have hne := decDigits_ne_nil (n / 10)
      have : (decDigits (n / 10)).length ≥ 1 := by
        cases hq : decDigits (n / 10) with
        | nil => exact absurd hq hne
        | cons x xs => simp
      simp only [List.length_append, List.length_cons, List.length_nil] at hlen
      omega
    · exfalso
      have hlen := congrArg List.length h
      unfold decDigits at hlen
      rw [dif_neg hm, dif_pos hn] at hlen
      have hne := decDigits_ne_nil (m / 10)
      have : (decDigits (m / 10)).length ≥ 1 := by
        cases hq : decDigits (m / 10) with
        | nil => exact absurd hq hne
        | cons x xs => simp
      simp only [List.length_append, List.length_cons, List.length_nil] at hlen
      omega
    · unfold decDigits at h
      rw [dif_neg hm, dif_neg hn] at h
      have hrev := congrArg List.reverse h
      simp only [List.reverse_append, List.reverse_cons, List.reverse_nil, List.nil_append,
        List.singleton_append] at hrev
      have hhead : decDigitChar (m % 10) = decDigitChar (n % 10) := by injection hrev
      have htail : (decDigits (m / 10)).reverse = (decDigits (n / 10)).reverse := by injection hrev
      have hmod : m % 10 = n % 10 :=
        decDigitChar_inj (Nat.mod_lt _ (by omega)) (Nat.mod_lt _ (by omega)) hhead
      have hdivlt : m / 10 < m := Nat.div_lt_self (by omega) (by omega)
      have hdiv : m / 10 = n / 10 := ih (m / 10) hdivlt (List.reverse_injective htail)
      omega

theorem natDecimal_eq_decDigits (n : Nat) : natDecimal n = String.mk (decDigits n) := by
  unfold natDecimal
  rw [decDigitsCore_eq (n + 1) n [] (by omega), List.append_nil]

theorem natDecimal_inj {m n : Nat} (h : natDecimal m = natDecimal n) : m = n := by
  rw [natDecimal_eq_decDigits, natDecimal_eq_decDigits] at h
  have : decDigits m = decDigits n := by injection h
  exact decDigits_inj this

theorem string_append_left_cancel {s a b : String} (h : s ++ a = s ++ b) : a = b := by
  have hd := congrArg String.data h
  simp only [String.data_append] at hd
  exact String.ext (List.append_cancel_left hd)

theorem cryptoSign_payload_inj {priv p q : String} (h : cryptoSign priv p = cryptoSign priv q) :
    p = q := by
  unfold cryptoSign at h
  have hd : "sig(".data ++ (priv.data ++ '|' :: (p.data ++ [')'])) =
      "sig(".data ++ (priv.data ++ '|' :: (q.data ++ [')'])) := by
    have := congrArg String.data h
    simpa using this
  have h1 := List.append_cancel_left hd
  have h2 := List.append_cancel_left h1
  have h3 : p.data ++ [')'] = q.data ++ [')'] := by injection h2
  exact String.ext (List.append_cancel_right h3)

theorem pubToPriv_pubKeyOf (kp : KeyPair) : pubToPriv (pubKeyOf kp) = some (privKeyOf kp) := by
  simp [pubToPriv, pubKeyOf, privKeyOf, String.data_append]
  rfl

theorem cryptoVerify_sign (kp : KeyPair) (payload : String) :
    cryptoVerify (pubKeyOf kp) (cryptoSign (privKeyOf kp) payload) payload = .ok true := by
  simp [cryptoVerify, pubToPriv_pubKeyOf]

theorem stableStringify_obj_eq (fields : List (String × JsVal)) :
    stableStringify (.obj fields) =
      some ("\x7b" ++ joinComma ((sortEntries (stringifyEntries fields)).filterMap entryPart)
        ++ "\x7d") := rfl

theorem verify_obj_formula (fields : List (String × JsVal)) (sig pub : String) :
    IdentityManager.verify (.obj fields) sig pub =
      .ok (match pubToPriv pub with
        | some priv => sig == cryptoSign priv ((stableStringify (.obj fields)).getD "")
        | none => false) := by
  unfold IdentityManager.verify cryptoVerify
  cases pubToPriv pub <;> rfl

/-- Adding one nonempty part to a comma-joined list (in any position)
strictly increases the joined length. -/
theorem joinComma_perm_cons_length {parts parts2 : List String} {p : String}
    (hperm : parts2.Perm (p :: parts)) (hp : 1 ≤ p.length) :
    (joinComma parts).length < (joinComma parts2).length := by
  have hsum := (hperm.map String.length).sum_eq
  have hcount := hperm.length_eq
  rw [joinComma_length, joinComma_length]
  simp only [List.map_cons, List.sum_cons, List.length_cons] at hsum hcount
  omega

/-! ### Claim theorems: canonical codec -/

/-- Claim C5 — canonicalization is deterministic and key-order independent: for
every value two applications of `stableStringify` agree, and for every two
mappings with the same key/value pairs in any key (construction) order —
i.e. permutations of one another, with the `Nodup` keys every JavaScript
object has — `stableStringify` yields identical strings. -/
theorem C5_canonicalization_order_independent (v : JsVal) (f₁ f₂ : List (String × JsVal))
    (hperm : f₁.Perm f₂) (hnd : (f₁.map Prod.fst).Nodup) :
    stableStringify v = stableStringify v ∧
    stableStringify (.obj f₁) = stableStringify (.obj f₂) := by
  refine ⟨rfl, ?_⟩
  rw [stableStringify_obj_eq, stableStringify_obj_eq]
  have hent : (stringifyEntries f₁).Perm (stringifyEntries f₂) := by
    rw [stringifyEntries_eq_map, stringifyEntries_eq_map]
    exact hperm.map _
  have hsorted : sortEntries (stringifyEntries f₁) = sortEntries (stringifyEntries f₂) := by
    apply perm_sorted_nodupFst_eq
    · exact (perm_sortEntries _).trans (hent.trans (perm_sortEntries _).symm)
    · exact pairwise_sortEntries _
    · exact pairwise_sortEntries _
    · have h1 : ((sortEntries (stringifyEntries f₁)).map Prod.fst).Perm (f₁.map Prod.fst) := by
        rw [← stringifyEntries_map_fst]
        exact (perm_sortEntries _).map _
      exact h1.nodup_iff.mpr hnd
  rw [hsorted]

/-- Witness for C5 at a concrete input: the two field orders of
`{a:1, b:2}` have nodup keys and canonicalize identically. -/
theorem C5_canonicalization_order_independent_witness :
    ([("a", JsVal.num 1), ("b", JsVal.num 2)].map Prod.fst).Nodup ∧
    stableStringify (.obj [("a", .num 1), ("b", .num 2)])
      = stableStringify (.obj [("b", .num 2), ("a", .num 1)]) :=
  ⟨by decide,
    (C5_canonicalization_order_independent .null _ _
      (List.Perm.swap ("b", JsVal.num 2) ("a", JsVal.num 1) []) (by decide)).2⟩

/-- Claim C8 — in mappings an `undefined`-valued key is omitted entirely (the
object canonicalizes exactly like the one without the field), while a
`null`-valued key is emitted, so adding `k := null` changes the canonical
string. -/
theorem C8_undefined_omitted_null_emitted (k : String) (fields : List (String × JsVal))
    (_hk : k ∉ fields.map Prod.fst) :
    stableStringify (.obj ((k, .undef) :: fields)) = stableStringify (.obj fields) ∧
    stableStringify (.obj ((k, .null) :: fields)) ≠ stableStringify (.obj fields) := by
  constructor
  · rw [stableStringify_obj_eq, stableStringify_obj_eq]
    have h1 : stringifyEntries ((k, .undef) :: fields) = (k, none) :: stringifyEntries fields := rfl
    rw [h1]
    have h2 : sortEntries ((k, none) :: stringifyEntries fields)
        = insertEntry (k, none) (sortEntries (stringifyEntries fields)) := rfl
    rw [h2, filterMap_insertEntry_none (show entryPart (k, none) = none from rfl)]
  · rw [stableStringify_obj_eq, stableStringify_obj_eq]
    intro hcontra
    have hstr := Option.some.inj hcontra
    have h1 : stringifyEntries ((k, .null) :: fields) = (k, some "null") :: stringifyEntries fields := rfl
    rw [h1] at hstr
    have h2 : sortEntries ((k, some "null") :: stringifyEntries fields)
        = insertEntry (k, some "null") (sortEntries (stringifyEntries fields)) := rfl
    rw [h2] at hstr
    have hperm : ((insertEntry (k, some "null") (sortEntries (stringifyEntries fields))).filterMap entryPart).Perm
        ((jsonQuote k ++ ":" ++ "null") :: (sortEntries (stringifyEntries fields)).filterMap entryPart) := by
      have hp := (perm_insertEntry (k, some "null") (sortEntries (stringifyEntries fields))).filterMap entryPart
      simpa [List.filterMap_cons, entryPart] using hp
    have hlt := joinComma_perm_cons_length hperm (by
      rw [String.length_append]
      have h4 : ("null" : String).length = 4 := rfl
      omega)
    have hlen := congrArg String.length hstr
    simp only [String.length_append] at hlen
    omega

/-- Witness for C8 at a concrete input: in `{a:1}` adding `k` as `undefined`
changes nothing, adding it as `null` changes the canonical bytes. -/
theorem C8_undefined_omitted_null_emitted_witness :
    ("k" ∉ [("a", JsVal.num 1)].map Prod.fst) ∧
    stableStringify (.obj [("k", .undef), ("a", .num 1)]) = stableStringify (.obj [("a", .num 1)]) ∧
    stableStringify (.obj [("k", .null), ("a", .num 1)]) ≠ stableStringify (.obj [("a", .num 1)]) :=
  ⟨by decide,
    (C8_undefined_omitted_null_emitted "k" [("a", JsVal.num 1)] (by decide)).1,
    (C8_undefined_omitted_null_emitted "k" [("a", JsVal.num 1)] (by decide)).2⟩

/-- Claim C10 — in sequences, `undefined` and function elements are serialized
as empty join entries, not omitted: `[undefined]` canonicalizes to `"[]"`
exactly like `[]` (so signing either produces the same signature), and a
trailing `undefined` leaves a dangling comma. -/
theorem C10_array_undefined_collides :
    stableStringify (.arr [.undef]) = stableStringify (.arr []) ∧
    stableStringify (.arr [.func]) = stableStringify (.arr []) ∧
    stableStringify (.arr [.undef]) = some "[]" ∧
    stableStringify (.arr [.num 1, .undef]) = some "[1,]" ∧
    ∀ im : IdentityManager, im.sign (.arr [.undef]) = im.sign (.arr []) :=
  ⟨rfl, rfl, rfl, rfl, fun _ => rfl⟩

/-! ### Claim theorems: identity layer -/

/-- When the data canonicalizes, `verify` reduces to the backend check with
the caught-exception fallback. -/
theorem verify_of_stringify_some {data : JsVal} {payload : String}
    (h : stableStringify data = some payload) (sig pub : String) :
    IdentityManager.verify data sig pub =
      (match cryptoVerify pub sig payload with
        | .ok b => .ok b
        | .error _ => .ok false) := by
  unfold IdentityManager.verify
  rw [h]

/-- Claim C2 — sign/verify round trip: whenever `sign` returns a signature for
some data (i.e. the data has a defined canonical form, which `sign` requires
to return at all), `verify` accepts that signature for the same data against
the paired public key. -/
theorem C2_sign_verify_roundtrip (name : String) (now : Nat) (kp : KeyPair)
    (data : JsVal) (sig : String)
    (hsig : (IdentityManager.create name now kp).sign data = .ok sig) :
    IdentityManager.verify data sig (IdentityManager.create name now kp).publicKey = .ok true := by
  unfold IdentityManager.sign at hsig
  cases hst : stableStringify data with
  | none => rw [hst] at hsig; exact absurd hsig (by simp)
  | some payload =>
    rw [hst] at hsig
    obtain rfl : cryptoSign (privKeyOf kp) payload = sig := by injection hsig
    rw [verify_of_stringify_some hst]
    have hpub : (IdentityManager.create name now kp).publicKey = pubKeyOf kp := rfl
    rw [hpub, cryptoVerify_sign]

/-- Witness for C2 at a concrete input. -/
theorem C2_sign_verify_roundtrip_witness :
    (IdentityManager.create "w" 0 ⟨5⟩).sign .null = .ok (cryptoSign (privKeyOf ⟨5⟩) "null") ∧
    IdentityManager.verify .null (cryptoSign (privKeyOf ⟨5⟩) "null")
      (IdentityManager.create "w" 0 ⟨5⟩).publicKey = .ok true :=
  ⟨rfl, C2_sign_verify_roundtrip "w" 0 ⟨5⟩ .null _ rfl⟩

/-- Claim C6, counterexample — the claim "for every data value `verify` returns
a boolean and never throws" fails at `data = undefined`: `stableStringify`
yields `undefined`, `verify.update(undefined)` throws a `TypeError` outside
the `try/catch`, so `verify` propagates an exception instead of returning a
boolean. -/
theorem C6_verify_throws_on_undefined :
    IdentityManager.verify jsUndefined "deadbeef" (pubKeyOf ⟨0⟩)
      = .error "The data argument must be of type string or an instance of Buffer" := rfl

/-- Claim C6, amended — for every data value with a defined canonical form
(anything but `undefined` or a function), `verify` returns a boolean and
never throws; in particular an exception of the cryptographic backend's
verification step (e.g. a wrong-format public key) is caught and converted
to `false`. -/
theorem C6_verify_total_on_serializable (data : JsVal) (sig pub payload : String)
    (h : stableStringify data = some payload) :
    (IdentityManager.verify data sig pub = .ok true ∨
      IdentityManager.verify data sig pub = .ok false) ∧
    (pubToPriv pub = none → IdentityManager.verify data sig pub = .ok false) := by
  have hv := verify_of_stringify_some h sig pub
  constructor
  · rw [hv]
    cases cryptoVerify pub sig payload with
    | ok b =>
      cases b with
      | true => exact Or.inl rfl
      | false => exact Or.inr rfl
    | error e => exact Or.inr rfl
  · intro hpub
    rw [hv]
    unfold cryptoVerify
    rw [hpub]

/-- Witness for the amended C6 at a concrete input: a serializable value and
a malformed public key give `false`, not an exception. -/
theorem C6_verify_total_on_serializable_witness :
    stableStringify .null = some "null" ∧
    (IdentityManager.verify .null "x" "badkey" = .ok true ∨
      IdentityManager.verify .null "x" "badkey" = .ok false) ∧
    (pubToPriv "badkey" = none → IdentityManager.verify .null "x" "badkey" = .ok false) :=
  ⟨rfl, (C6_verify_total_on_serializable .null "x" "badkey" "null" rfl).1,
    (C6_verify_total_on_serializable .null "x" "badkey" "null" rfl).2⟩

/-! ### Claim theorems: executor pipeline -/

/-- The verification call of `executeTask` always reduces to the backend
check formula: the reconstructed `dataToVerify` is a plain object, so
canonicalization is defined on it and `verify` cannot throw there. -/
theorem verify_taskData_formula (t : SignedTask) :
    IdentityManager.verify (taskDataToVerify t) t.signature t.publicKey =
      .ok (match pubToPriv t.publicKey with
        | some priv =>
          t.signature == cryptoSign priv ((stableStringify (taskDataToVerify t)).getD "")
        | none => false) :=
  verify_obj_formula _ _ _

/-- Projections of `_createSignedResult` on the failure path. -/
theorem createSignedResult_failure_spec (ex : Executor) (tid : JsVal) (res err : JsVal)
    (now : Nat) :
    (ex.createSignedResult tid "failure" res err now).status = "failure" ∧
    (ex.createSignedResult tid "failure" res err now).result = none ∧
    (ex.createSignedResult tid "failure" res err now).error = some err ∧
    (ex.createSignedResult tid "failure" res err now).signature
      = cryptoSign ex.identity.privateKey
        ((stableStringify (ex.createSignedResult tid "failure" res err now).unsignedJs).getD "") :=
  ⟨rfl, rfl, rfl, rfl⟩

/-- Projections of `_createSignedResult` on the success path. -/
theorem createSignedResult_success_spec (ex : Executor) (tid : JsVal) (res err : JsVal)
    (now : Nat) :
    (ex.createSignedResult tid "success" res err now).status = "success" ∧
    (ex.createSignedResult tid "success" res err now).result = some res ∧
    (ex.createSignedResult tid "success" res err now).error = none ∧
    (ex.createSignedResult tid "success" res err now).signature
      = cryptoSign ex.identity.privateKey
        ((stableStringify (ex.createSignedResult tid "success" res err now).unsignedJs).getD "") :=
  ⟨rfl, rfl, rfl, rfl⟩

/-- The signature attached by `_createSignedResult` is exactly
`this.identity.sign(resultObject)` over the other fields. -/
theorem createSignedResult_signature (ex : Executor) (tid : JsVal) (status : String)
    (res err : JsVal) (now : Nat) :
    ex.identity.sign (ex.createSignedResult tid status res err now).unsignedJs
      = .ok (ex.createSignedResult tid status res err now).signature := rfl

/-- The signature attached by `Requester.createTask` is exactly
`this.identity.sign(taskData)` over the five signed fields. -/
theorem createTask_signature (rq : Requester) (cid : String) (payload : JsVal)
    (tid : String) (now : Nat) :
    rq.identity.sign (taskDataToVerify (rq.createTask cid payload tid now))
      = .ok (rq.createTask cid payload tid now).signature := rfl

/-- The well-formedness bundle for a failure result. -/
theorem failure_result_props (ex : Executor) (tid : JsVal) (res err : JsVal) (now : Nat) :
    ((ex.createSignedResult tid "failure" res err now).status = "success" ∨
      (ex.createSignedResult tid "failure" res err now).status = "failure") ∧
    ((ex.createSignedResult tid "failure" res err now).result.isSome ↔
      (ex.createSignedResult tid "failure" res err now).status = "success") ∧
    ((ex.createSignedResult tid "failure" res err now).error.isSome ↔
      (ex.createSignedResult tid "failure" res err now).status = "failure") ∧
    (ex.createSignedResult tid "failure" res err now).signature
      = cryptoSign ex.identity.privateKey
        ((stableStringify (ex.createSignedResult tid "failure" res err now).unsignedJs).getD "") := by
  refine ⟨Or.inr rfl, ?_, ?_, rfl⟩
  · show (none : Option JsVal).isSome = true ↔ "failure" = "success"
    simp
  · show (some err).isSome = true ↔ "failure" = "failure"
    simp

/-- The well-formedness bundle for a success result. -/
theorem success_result_props (ex : Executor) (tid : JsVal) (res err : JsVal) (now : Nat) :
    ((ex.createSignedResult tid "success" res err now).status = "success" ∨
      (ex.createSignedResult tid "success" res err now).status = "failure") ∧
    ((ex.createSignedResult tid "success" res err now).result.isSome ↔
      (ex.createSignedResult tid "success" res err now).status = "success") ∧
    ((ex.createSignedResult tid "success" res err now).error.isSome ↔
      (ex.createSignedResult tid "success" res err now).status = "failure") ∧
    (ex.createSignedResult tid "success" res err now).signature
      = cryptoSign ex.identity.privateKey
        ((stableStringify (ex.createSignedResult tid "success" res err now).unsignedJs).getD "") := by
  refine ⟨Or.inl rfl, ?_, ?_, rfl⟩
  · show (some res).isSome = true ↔ "success" = "success"
    simp
  · show (none : Option JsVal).isSome = true ↔ "success" = "failure"
    simp

/-- The authentication-failure branch of `executeTask`. -/
theorem executeTask_auth_fail_eq (ex : Executor) (t : SignedTask) (now : Nat)
    (hb : IdentityManager.verify (taskDataToVerify t) t.signature t.publicKey = .ok false) :
    ex.executeTask t now = .ok (ex.createSignedResult t.taskId "failure" .null
      (.str "Invalid Task Signature: Auth Failed") now, []) := by
  unfold Executor.executeTask
  simp only [hb]

/-- The unknown-capability branch of `executeTask`. -/
theorem executeTask_no_handler_eq (ex : Executor) (t : SignedTask) (now : Nat)
    (hb : IdentityManager.verify (taskDataToVerify t) t.signature t.publicKey = .ok true)
    (hg : mapGet ex.handlers t.capabilityId = none) :
    ex.executeTask t now = .ok (ex.createSignedResult t.taskId "failure" .null
      (.str ("Capability \x27" ++ t.capabilityId ++ "\x27 not supported by this executor.")) now, []) := by
  unfold Executor.executeTask
  simp only [hb, hg]

/-- The schema-validation-failure branch of `executeTask`. -/
theorem executeTask_schema_fail_eq (ex : Executor) (t : SignedTask) (now : Nat)
    (handler : Handler) (msg : String)
    (hb : IdentityManager.verify (taskDataToVerify t) t.signature t.publicKey = .ok true)
    (hg : mapGet ex.handlers t.capabilityId = some handler)
    (hvc : ex.capabilityManager.validateCapability t.capabilityId t.payload = .error msg) :
    ex.executeTask t now = .ok (ex.createSignedResult t.taskId "failure" .null
      (.str ("Schema Validation Failed: " ++ msg)) now, []) := by
  unfold Executor.executeTask
  simp only [hb, hg, hvc]

/-- The successful-handler branch of `executeTask`: the handler is invoked with the
raw `t.payload` (both as its argument and in the instrumentation trace). -/
theorem executeTask_handler_ok_eq (ex : Executor) (t : SignedTask) (now : Nat)
    (handler : Handler) (v res : JsVal)
    (hb : IdentityManager.verify (taskDataToVerify t) t.signature t.publicKey = .ok true)
    (hg : mapGet ex.handlers t.capabilityId = some handler)
    (hvc : ex.capabilityManager.validateCapability t.capabilityId t.payload = .ok v)
    (hh : handler t.payload = .ok res) :
    ex.executeTask t now
      = .ok (ex.createSignedResult t.taskId "success" res .null now, [t.payload]) := by
  unfold Executor.executeTask
  simp only [hb, hg, hvc, hh]

/-- The handler-threw branch of `executeTask`. -/
theorem executeTask_handler_err_eq (ex : Executor) (t : SignedTask) (now : Nat)
    (handler : Handler) (v : JsVal) (msg : String)
    (hb : IdentityManager.verify (taskDataToVerify t) t.signature t.publicKey = .ok true)
    (hg : mapGet ex.handlers t.capabilityId = some handler)
    (hvc : ex.capabilityManager.validateCapability t.capabilityId t.payload = .ok v)
    (hh : handler t.payload = .error msg) :
    ex.executeTask t now
      = .ok (ex.createSignedResult t.taskId "failure" .null (.str msg) now, [t.payload]) := by
  unfold Executor.executeTask
  simp only [hb, hg, hvc, hh]

/-- The signature check of `executeTask` cannot throw: it returns a boolean
verdict on every input task. -/
theorem verify_taskData_bool (t : SignedTask) :
    IdentityManager.verify (taskDataToVerify t) t.signature t.publicKey = .ok true ∨
    IdentityManager.verify (taskDataToVerify t) t.signature t.publicKey = .ok false := by
  have hv := verify_taskData_formula t
  cases hmatch : (match pubToPriv t.publicKey with
      | some priv =>
        t.signature == cryptoSign priv ((stableStringify (taskDataToVerify t)).getD "")
      | none => false) with
  | true => rw [hmatch] at hv; exact Or.inl hv
  | false => rw [hmatch] at hv; exact Or.inr hv

/-- Claim C4 — every call of `executeTask` returns (never throws) a result
whose `status` is `success` or `failure`, which carries `result` iff it
succeeded and `error` iff it failed (exactly one of the two), and whose
`signature` is produced with the Executor\'s own private key over all of its
other fields. -/
theorem C4_executeTask_always_signed_wellformed (ex : Executor) (t : SignedTask) (now : Nat) :
    ∃ r tr, ex.executeTask t now = .ok (r, tr) ∧
      (r.status = "success" ∨ r.status = "failure") ∧
      (r.result.isSome ↔ r.status = "success") ∧
      (r.error.isSome ↔ r.status = "failure") ∧
      r.signature = cryptoSign ex.identity.privateKey ((stableStringify r.unsignedJs).getD "") := by
  rcases verify_taskData_bool t with hb | hb
  · cases hg : mapGet ex.handlers t.capabilityId with
    | none =>
      exact ⟨_, _, executeTask_no_handler_eq ex t now hb hg,
        failure_result_props ex t.taskId .null
          (.str ("Capability \x27" ++ t.capabilityId ++ "\x27 not supported by this executor.")) now⟩
    | some handler =>
      cases hvc : ex.capabilityManager.validateCapability t.capabilityId t.payload with
      | error e =>
        exact ⟨_, _, executeTask_schema_fail_eq ex t now handler e hb hg hvc,
          failure_result_props ex t.taskId .null (.str ("Schema Validation Failed: " ++ e)) now⟩
      | ok v =>
        cases hh : handler t.payload with
        | ok res =>
          exact ⟨_, _, executeTask_handler_ok_eq ex t now handler v res hb hg hvc hh,
            success_result_props ex t.taskId res .null now⟩
        | error msg =>
          exact ⟨_, _, executeTask_handler_err_eq ex t now handler v msg hb hg hvc hh,
            failure_result_props ex t.taskId .null (.str msg) now⟩
  · exact ⟨_, _, executeTask_auth_fail_eq ex t now hb,
      failure_result_props ex t.taskId .null (.str "Invalid Task Signature: Auth Failed") now⟩

/-- Claim C7 — schema gate: a verified task addressed to a registered handler
whose payload fails the capability's input schema produces a signed failure
result carrying `Schema Validation Failed: <message>` with the schema
engine's message, and the handler is never invoked (the invocation trace is
empty). -/
theorem C7_schema_gate_blocks_handler (ex : Executor) (t : SignedTask) (now : Nat)
    (handler : Handler) (cap : Capability) (msg : String)
    (hb : IdentityManager.verify (taskDataToVerify t) t.signature t.publicKey = .ok true)
    (hg : mapGet ex.handlers t.capabilityId = some handler)
    (hcap : ex.capabilityManager.capabilities.find? (fun c => c.id == t.capabilityId) = some cap)
    (hschema : cap.inputSchemaZod t.payload = .error msg) :
    ex.executeTask t now = .ok (ex.createSignedResult t.taskId "failure" .null
      (.str ("Schema Validation Failed: " ++ msg)) now, []) ∧
    (ex.createSignedResult t.taskId "failure" .null
      (.str ("Schema Validation Failed: " ++ msg)) now).status = "failure" ∧
    (ex.createSignedResult t.taskId "failure" .null
      (.str ("Schema Validation Failed: " ++ msg)) now).error
      = some (.str ("Schema Validation Failed: " ++ msg)) ∧
    (ex.createSignedResult t.taskId "failure" .null
      (.str ("Schema Validation Failed: " ++ msg)) now).signature
      = cryptoSign ex.identity.privateKey
        ((stableStringify (ex.createSignedResult t.taskId "failure" .null
          (.str ("Schema Validation Failed: " ++ msg)) now).unsignedJs).getD "") := by
  have hvc : ex.capabilityManager.validateCapability t.capabilityId t.payload = .error msg := by
    unfold CapabilityManager.validateCapability
    simp only [hcap]
    exact hschema
  exact ⟨executeTask_schema_fail_eq ex t now handler msg hb hg hvc, rfl, rfl, rfl⟩

/-- Witness for C7 at a concrete input. -/
theorem C7_schema_gate_blocks_handler_witness :
    IdentityManager.verify (taskDataToVerify c7Task) c7Task.signature c7Task.publicKey = .ok true ∧
    mapGet c7Exec.handlers c7Task.capabilityId = some handlerEcho ∧
    c7Cap.inputSchemaZod c7Task.payload = .error "Expected number, received string" ∧
    c7Exec.executeTask c7Task 7 = .ok (c7Exec.createSignedResult c7Task.taskId "failure" .null
      (.str ("Schema Validation Failed: " ++ "Expected number, received string")) 7, []) :=
  ⟨rfl, rfl, rfl,
    (C7_schema_gate_blocks_handler c7Exec c7Task 7 handlerEcho c7Cap
      "Expected number, received string" rfl rfl rfl rfl).1⟩

/-- Claim C3, amended — tamper detection up to canonicalization: for a task
whose signature verifies, any modification of the signed field set that
changes the canonical form of the reconstructed `dataToVerify` (in
particular any single-field change with a different canonical form) makes
`executeTask` return the signed failure with exactly the diagnostic
`Invalid Task Signature: Auth Failed`, and no handler is invoked. -/
theorem C3_tamper_changing_canonical_rejected (ex : Executor) (t t2 : SignedTask) (now : Nat)
    (hsig : t2.signature = t.signature) (hpub : t2.publicKey = t.publicKey)
    (hvalid : IdentityManager.verify (taskDataToVerify t) t.signature t.publicKey = .ok true)
    (hdiff : stableStringify (taskDataToVerify t2) ≠ stableStringify (taskDataToVerify t)) :
    ex.executeTask t2 now = .ok (ex.createSignedResult t2.taskId "failure" .null
      (.str "Invalid Task Signature: Auth Failed") now, []) ∧
    (ex.createSignedResult t2.taskId "failure" .null
      (.str "Invalid Task Signature: Auth Failed") now).error
      = some (.str "Invalid Task Signature: Auth Failed") ∧
    (ex.createSignedResult t2.taskId "failure" .null
      (.str "Invalid Task Signature: Auth Failed") now).status = "failure" := by
  have hfalse : IdentityManager.verify (taskDataToVerify t2) t2.signature t2.publicKey
      = .ok false := by
    rw [verify_taskData_formula t] at hvalid
    have hvb : (match pubToPriv t.publicKey with
        | some priv =>
          t.signature == cryptoSign priv ((stableStringify (taskDataToVerify t)).getD "")
        | none => false) = true := by injection hvalid
    cases hp : pubToPriv t.publicKey with
    | none => rw [hp] at hvb; exact absurd hvb (by simp)
    | some priv =>
      rw [hp] at hvb
      have hsigeq : t.signature
          = cryptoSign priv ((stableStringify (taskDataToVerify t)).getD "") := eq_of_beq hvb
      rw [verify_taskData_formula t2, hpub, hp]
      show Except.ok (t2.signature
          == cryptoSign priv ((stableStringify (taskDataToVerify t2)).getD "")) = Except.ok false
      rw [hsig, hsigeq]
      refine congrArg Except.ok (beq_eq_false_iff_ne.mpr ?_)
      intro hcc
      apply hdiff
      have hsome1 : stableStringify (taskDataToVerify t)
          = some ((stableStringify (taskDataToVerify t)).getD "") := rfl
      have hsome2 : stableStringify (taskDataToVerify t2)
          = some ((stableStringify (taskDataToVerify t2)).getD "") := rfl
      rw [hsome2, hsome1]
      exact congrArg some (cryptoSign_payload_inj hcc).symm
  exact ⟨executeTask_auth_fail_eq ex t2 now hfalse, rfl, rfl⟩

/-- Witness for the amended C3 at a concrete input. -/
theorem C3_tamper_changing_canonical_rejected_witness :
    c3Tampered.signature = c3Task.signature ∧
    c3Tampered.publicKey = c3Task.publicKey ∧
    IdentityManager.verify (taskDataToVerify c3Task) c3Task.signature c3Task.publicKey = .ok true ∧
    stableStringify (taskDataToVerify c3Tampered) ≠ stableStringify (taskDataToVerify c3Task) ∧
    c3Exec.executeTask c3Tampered 7 = .ok (c3Exec.createSignedResult c3Tampered.taskId "failure"
      .null (.str "Invalid Task Signature: Auth Failed") 7, []) :=
  ⟨rfl, rfl, rfl, by decide,
    (C3_tamper_changing_canonical_rejected c3Exec c3Task c3Tampered 7 rfl rfl rfl (by decide)).1⟩

/-- Claim C3, counterexample — the claim as stated is false: `c3cTask` is
validly signed, `c3cTampered` changes exactly one signed field (the
payload, `[undefined]` to `[]` — a different value with the same canonical
form `"[]"`), yet `executeTask` does not fail authentication: it runs the
handler (trace `[[]]`) and returns a signed success result. -/
theorem C3_undetected_tamper_counterexample :
    IdentityManager.verify (taskDataToVerify c3cTask) c3cTask.signature c3cTask.publicKey
      = .ok true ∧
    c3cTampered = { c3cTask with payload := .arr [] } ∧
    c3cTask.payload ≠ c3cTampered.payload ∧
    c3Exec.executeTask c3cTampered 7
      = .ok (c3Exec.createSignedResult c3cTampered.taskId "success" (.arr []) .null 7,
        [.arr []]) ∧
    (c3Exec.createSignedResult c3cTampered.taskId "success" (.arr []) .null 7).status
      = "success" :=
  ⟨rfl, rfl, by simp [c3cTask, Requester.createTask, c3cTampered], rfl, rfl⟩

/-- Claim C1, code-bug evidence — at this input, `validateCapability` returns
the validated payload with `extra` stripped, but `executeTask` discards that
return value: the handler is invoked with the raw payload (the trace is
`[c1Payload]`) and the echoed raw payload — `extra` included — flows into
the success result, contradicting the claim that the handler receives the
validated, stripped payload. -/
theorem C1_handler_receives_raw_payload :
    c1Exec.capabilityManager.validateCapability "cap_echo_0" c1Payload
      = .ok (.obj [("a", .num 2)]) ∧
    c1Exec.executeTask c1Task 7
      = .ok (c1Exec.createSignedResult c1Task.taskId "success" c1Payload .null 7, [c1Payload]) ∧
    c1Payload ≠ .obj [("a", .num 2)] :=
  ⟨rfl, rfl, by simp [c1Payload]⟩

/-- Claim C9, counterexample — two `registerCapability` calls with the same name
and the same `Date.now()` reading (same millisecond) return capabilities
with the *same* id `cap_add_5`, so "any two calls with the same name return
distinct ids" is false on the code. -/
theorem C9_same_millisecond_id_collision :
    ((cm9.registerCapability "Add" schemaAccept schemaAccept (.obj []) 5).1.registerCapability
        "Add" schemaAccept schemaAccept (.obj []) 5).2.id
      = (cm9.registerCapability "Add" schemaAccept schemaAccept (.obj []) 5).2.id ∧
    (cm9.registerCapability "Add" schemaAccept schemaAccept (.obj []) 5).2.id = "cap_add_5" :=
  ⟨rfl, rfl⟩

/-- Claim C9, amended — the registry is append-only: `registerCapability`
only appends (every previously registered entry is preserved unchanged and
still a member), and two registrations under the same name get distinct
capability ids whenever their `Date.now()` readings differ. -/
theorem C9_registry_append_only_distinct_ids (cm cm2 : CapabilityManager) (name : String)
    (i1 o1 i2 o2 : Schema) (c1 c2 : JsVal) (now1 now2 : Nat) (hnow : now1 ≠ now2) :
    (cm.registerCapability name i1 o1 c1 now1).1.capabilities
      = cm.capabilities ++ [(cm.registerCapability name i1 o1 c1 now1).2] ∧
    (∀ c ∈ cm.capabilities, c ∈ (cm.registerCapability name i1 o1 c1 now1).1.capabilities) ∧
    (cm.registerCapability name i1 o1 c1 now1).2.id
      ≠ (cm2.registerCapability name i2 o2 c2 now2).2.id := by
  refine ⟨rfl, ?_, ?_⟩
  · intro c hc
    exact List.mem_append.mpr (Or.inl hc)
  · intro h
    simp only [CapabilityManager.registerCapability] at h
    exact hnow (natDecimal_inj (string_append_left_cancel h))

/-- Witness for the amended C9 at concrete inputs. -/
theorem C9_registry_append_only_distinct_ids_witness :
    (0 : Nat) ≠ 1 ∧
    (cm9.registerCapability "Add" schemaAccept schemaAccept (.obj []) 0).1.capabilities
      = cm9.capabilities ++ [(cm9.registerCapability "Add" schemaAccept schemaAccept (.obj []) 0).2] ∧
    (cm9.registerCapability "Add" schemaAccept schemaAccept (.obj []) 0).2.id
      ≠ (cm9.registerCapability "Add" schemaAccept schemaAccept (.obj []) 1).2.id :=
  ⟨by decide,
    (C9_registry_append_only_distinct_ids cm9 cm9 "Add" schemaAccept schemaAccept schemaAccept
      schemaAccept (.obj []) (.obj []) 0 1 (by decide)).1,
    (C9_registry_append_only_distinct_ids cm9 cm9 "Add" schemaAccept schemaAccept schemaAccept
      schemaAccept (.obj []) (.obj []) 0 1 (by decide)).2.2⟩
